import Mathlib

/-!
Shallow embedding of the `query` predicate-engine repository.

JavaScript runtime values are modelled by `JsValue`: `null` and `undefined`
are distinct values, JS `Map` instances (`vMap`) keep their entries in
insertion order as an association list, and plain objects (`vObj`) do the
same for their own properties.  Strict equality (`===`) is modelled by
`strictEq`: structural on primitives, `false` on any pair involving a
composite value (two distinct heap objects are never `===`; an aliased
object never reaches a `===` comparison in the claims under study).

Heap identity of `Query` nodes is modelled by a `tag : Nat` carried by every
node: distinct allocations carry distinct tags, and an aliased reference
re-uses the tag of its target, so structural equality of the embedded trees
coincides with JS reference identity.
-/

namespace JsQuery

/-- Model of a JavaScript runtime value, as far as the engine inspects it. -/
inductive JsValue where
  | vNull
  | vUndef
  | vNum (n : Int)
  | vStr (s : String)
  | vBool (b : Bool)
  | vMap (entries : List (String × JsValue))
  | vObj (fields : List (String × JsValue))

open JsValue

mutual

/-- Structural (decidable) equality test on `JsValue`. -/
def beqVal : JsValue → JsValue → Bool
  | vNull, vNull => true
  | vUndef, vUndef => true
  | vNum a, vNum b => a == b
  | vStr a, vStr b => a == b
  | vBool a, vBool b => a == b
  | vMap a, vMap b => beqEntries a b
  | vObj a, vObj b => beqEntries a b
  | _, _ => false

/-- Structural equality test on entry lists. -/
def beqEntries : List (String × JsValue) → List (String × JsValue) → Bool
  | [], [] => true
  | (k1, v1) :: r1, (k2, v2) :: r2 => k1 == k2 && beqVal v1 v2 && beqEntries r1 r2
  | _, _ => false

end

mutual

theorem beqVal_iff : ∀ a b : JsValue, beqVal a b = true ↔ a = b
  | vNull, b => by cases b <;> simp [beqVal]
  | vUndef, b => by cases b <;> simp [beqVal]
  | vNum a, b => by cases b <;> simp [beqVal]
  | vStr a, b => by cases b <;> simp [beqVal]
  | vBool a, b => by cases b <;> simp [beqVal]
  | vMap a, b => by
    cases b <;> simp [beqVal]
    exact beqEntries_iff a _
  | vObj a, b => by
    cases b <;> simp [beqVal]
    exact beqEntries_iff a _

theorem beqEntries_iff : ∀ a b : List (String × JsValue), beqEntries a b = true ↔ a = b
  | [], b => by cases b <;> simp [beqEntries]
  | (k1, v1) :: r1, [] => by simp [beqEntries]
  | (k1, v1) :: r1, (k2, v2) :: r2 => by
    simp [beqEntries, Bool.and_assoc, beqVal_iff v1 v2, beqEntries_iff r1 r2]
    tauto

end

instance : DecidableEq JsValue := fun a b =>
  decidable_of_iff _ (beqVal_iff a b)

/-- Argument maps are JS `Map<string, any>` instances: insertion-ordered
string-keyed association lists. -/
abbrev ArgMap := List (String × JsValue)

/-- JS `String.prototype.toUpperCase`, as a structurally computable map over
the characters. -/
def jsToUpper (s : String) : String :=
  ⟨s.data.map Char.toUpper⟩

/-- JS `String.prototype.toLowerCase`, as a structurally computable map over
the characters. -/
def jsToLower (s : String) : String :=
  ⟨s.data.map Char.toLower⟩

/-- Accumulating worker for `splitOnDot`. -/
def splitDotAux : List Char → List Char → List String
  | [], acc => [⟨acc.reverse⟩]
  | c :: rest, acc =>
    if c = '.' then (⟨acc.reverse⟩ : String) :: splitDotAux rest []
    else splitDotAux rest (c :: acc)

/-- JS `string.split(".")`: the dot-separated segments, empty segments
included. -/
def splitOnDot (s : String) : List String :=
  splitDotAux s.data []

/-- JS loose comparison `x == null`, true exactly for `null` and `undefined`. -/
def isNullish : JsValue → Bool
  | vNull => true
  | vUndef => true
  | _ => false

/-- JS strict equality `===` restricted to the values the engine compares:
structural on primitives; `false` when a composite value is involved
(two distinct heap objects). -/
def strictEq : JsValue → JsValue → Bool
  | vNull, vNull => true
  | vUndef, vUndef => true
  | vNum a, vNum b => a == b
  | vStr a, vStr b => a == b
  | vBool a, vBool b => a == b
  | _, _ => false

/-- JS bracket property access `obj[key]`: own properties of a plain object;
`undefined` on everything else — in particular a `Map`'s entries are NOT
properties, so bracket access on a `Map` yields `undefined`. -/
def propAccess : JsValue → String → JsValue
  | vObj fields, key => (fields.lookup key).getD vUndef
  | _, _ => vUndef

/-- JS `Map.prototype.get`: the stored value, or `undefined` when the key is
absent. -/
def mapGet (m : ArgMap) (k : String) : JsValue :=
  (m.lookup k).getD vUndef

/-- `fetchNestedValue` (src/util/fetchNestedValue.ts), array-path case, with
the mutated path array made explicit: the JS code `path.shift()`s keys off
the caller's array, so the function returns both the fetched value and the
state the caller's array is left in. -/
def fetchNestedValueArr (obj : JsValue) (path : List String) (fallback : JsValue) :
    JsValue × List String :=
  if isNullish obj then (fallback, path)
  else
    match path with
    | [] => (fallback, [])
    | key :: rest =>
      let val := propAccess obj key
      if isNullish val then (fallback, rest)
      else if rest.length > 0 then fetchNestedValueArr val rest fallback
      else (val, rest)

/-- `fetchNestedValue` with a string path: the string is split on `"."` into
a private working copy, so only the fetched value is observable. -/
def fetchNestedValueStr (obj : JsValue) (path : String) (fallback : JsValue) : JsValue :=
  (fetchNestedValueArr obj (splitOnDot path) fallback).1

/-- `getFieldValue` (src/util/getFieldValue.ts): `"this"` (case-insensitive)
returns the candidate itself; a `Map` candidate is queried with `Map.get`
(`undefined` when the key is absent); anything else yields `null`. -/
def getFieldValue (t : JsValue) (field : String) : JsValue :=
  if jsToLower field = "this" then t
  else
    match t with
    | vMap entries => mapGet entries field
    | _ => vNull

/-- `ConditionBase.getArgumentValue`: `null` on a falsy argument name,
otherwise `fetchNestedValue(argMap, argName)` with fallback `null`.  The
argument map is a JS `Map` instance, so it is passed to `fetchNestedValue`
as a `vMap`. -/
def getArgumentValue (argMap : ArgMap) (argName : String) : JsValue :=
  if argName = "" then vNull
  else (fetchNestedValueArr (vMap argMap) (splitOnDot argName) vNull).1

/-- `ConditionBase.testValues`: the default (EQUALS) comparison.  A `null`
argument value matches exactly a `null` field value; otherwise strict
equality. -/
def testValues (fieldValue argValue : JsValue) : Bool :=
  match argValue with
  | vNull => match fieldValue with
    | vNull => true
    | _ => false
  | _ => strictEq argValue fieldValue

/-- `ConditionBase.getAndTestFieldValue`: resolve the argument value, handle
the `_key` / `_val` pseudo-fields on `Map` candidates, otherwise compare the
extracted field value. -/
def getAndTestFieldValue (fieldName argName : String) (t : JsValue) (argMap : ArgMap) :
    Bool :=
  let argValue := getArgumentValue argMap argName
  match t with
  | vMap entries =>
    if jsToLower "_key" = jsToLower fieldName then
      entries.any fun e => testValues (vStr e.1) argValue
    else if jsToLower "_val" = jsToLower fieldName then
      entries.any fun e => testValues e.2 argValue
    else testValues (getFieldValue (vMap entries) fieldName) argValue
  | _ => testValues (getFieldValue t fieldName) argValue

/-- A `Query` tree node: a leaf condition (`ConditionBase`, default EQUALS
behaviour) or a combination node (`CombinationBase`, default AND behaviour).
The `tag` models the heap identity of the JS object (see module comment);
all other fields are the constructor-set fields of the source classes. -/
inductive Query where
  | leaf (tag : Nat) (fieldName argName : String) (argMap : ArgMap)
  | comb (tag : Nat) (children : List Query) (argMap : ArgMap)

mutual

/-- Structural equality test on `Query`, modelling JS reference identity
`===` under the unique-tag convention. -/
def beqQuery : Query → Query → Bool
  | .leaf t1 f1 a1 m1, .leaf t2 f2 a2 m2 =>
    t1 == t2 && f1 == f2 && a1 == a2 && beqEntries m1 m2
  | .comb t1 c1 m1, .comb t2 c2 m2 =>
    t1 == t2 && beqQueryList c1 c2 && beqEntries m1 m2
  | _, _ => false

/-- Structural equality test on `Query` lists. -/
def beqQueryList : List Query → List Query → Bool
  | [], [] => true
  | a :: r1, b :: r2 => beqQuery a b && beqQueryList r1 r2
  | _, _ => false

end

mutual

theorem beqQuery_iff : ∀ a b : Query, beqQuery a b = true ↔ a = b
  | .leaf t1 f1 a1 m1, b => by
    cases b <;> simp [beqQuery, Bool.and_assoc, beqEntries_iff m1 _]
  | .comb t1 c1 m1, b => by
    cases b <;>
      simp [beqQuery, Bool.and_assoc, beqQueryList_iff c1 _, beqEntries_iff m1 _]

theorem beqQueryList_iff : ∀ a b : List Query, beqQueryList a b = true ↔ a = b
  | [], b => by cases b <;> simp [beqQueryList]
  | x :: r1, [] => by simp [beqQueryList]
  | x :: r1, y :: r2 => by
    simp [beqQueryList, beqQuery_iff x y, beqQueryList_iff r1 r2]

end

instance : DecidableEq Query := fun a b =>
  decidable_of_iff _ (beqQuery_iff a b)

/-- The argument map stored in the node at construction
(`ConditionBase._argMap` / `CombinationBase._argMap`). -/
def storedArgMap : Query → ArgMap
  | .leaf _ _ _ m => m
  | .comb _ _ m => m

mutual

/-- `testWithArgMap`: dynamic dispatch over the node kind.  A leaf
(`ConditionBase.testWithArgMap`) delegates to `getAndTestFieldValue` with
the supplied map; a combination (`CombinationBase.testWithArgMap`) runs the
source's loop, embedded as `combTestLoop`. -/
def testWithArgMap : Query → JsValue → ArgMap → Bool
  | .leaf _ f a _, t, am => getAndTestFieldValue f a t am
  | .comb _ cs _, t, am => combTestLoop cs t am false

/-- The loop body of `CombinationBase.testWithArgMap`: `result` starts
`false`; a matching child sets it `true` and iteration continues; the first
failing child returns `false` immediately; after the loop the accumulated
`result` is returned. -/
def combTestLoop : List Query → JsValue → ArgMap → Bool → Bool
  | [], _, _, result => result
  | c :: rest, t, am, _result =>
    if testWithArgMap c t am then combTestLoop rest t am true
    else false

end

/-- `test(t)`: both node kinds evaluate against the argument map stored at
construction (`ConditionBase.test` / `CombinationBase.test`). -/
def test (q : Query) (t : JsValue) : Bool :=
  match q with
  | .leaf _ f a m => getAndTestFieldValue f a t m
  | .comb tag cs m => testWithArgMap (.comb tag cs m) t m

mutual

/-- `Query.replaceQuery(original, replacement)`: if the receiver is
`original` (reference identity, modelled by structural equality on tagged
trees) return `replacement`; otherwise a combination node splices
`replacement` over every child that is `original` and recursively delegates
to every other child; a leaf returns itself. -/
def replaceQuery : Query → Query → Query → Query
  | q, original, replacement =>
    if q = original then replacement
    else
      match q with
      | .leaf t f a m => .leaf t f a m
      | .comb t cs m => .comb t (replaceQueryList cs original replacement) m

/-- The source's `for` loop over a combination's children list: splice a
child that is `original`, recursively delegate otherwise. -/
def replaceQueryList : List Query → Query → Query → List Query
  | [], _, _ => []
  | c :: rest, original, replacement =>
    (if c = original then replacement else replaceQuery c original replacement)
      :: replaceQueryList rest original replacement

end

mutual

/-- Modelled from the spec's words for comparison with `replaceQuery`:
replace EVERY occurrence of `original` anywhere in the tree by
`replacement`, top-down, without descending into spliced replacements. -/
def replaceAllOccurrences : Query → Query → Query → Query
  | q, original, replacement =>
    if q = original then replacement
    else
      match q with
      | .leaf t f a m => .leaf t f a m
      | .comb t cs m => .comb t (replaceAllOccurrencesList cs original replacement) m

/-- Pointwise `replaceAllOccurrences` over a child list. -/
def replaceAllOccurrencesList : List Query → Query → Query → List Query
  | [], _, _ => []
  | c :: rest, original, replacement =>
    replaceAllOccurrences c original replacement
      :: replaceAllOccurrencesList rest original replacement

end

/-- `Query.defaultArgumentValue()` as specialised to a leaf: the stored map
looked up at the argument name via JS `Map.get` (`undefined` when absent);
`null` when the argument name is falsy. -/
def defaultArgumentValue (argName : String) (argMap : ArgMap) : JsValue :=
  if argName = "" then vNull else mapGet argMap argName

mutual

/-- `Query._queryArgumentsArray(ret)`: a leaf pushes its default argument
value unless that value is strictly `null` (note: `undefined` is pushed); a
combination folds the same accumulator through its children in order. -/
def queryArgumentsArrayAux : Query → List JsValue → List JsValue
  | .leaf _ _ a m, ret =>
    match defaultArgumentValue a m with
    | vNull => ret
    | v => ret ++ [v]
  | .comb _ cs _, ret => queryArgumentsArrayList cs ret

/-- The `forEach` over children in `Query._queryArgumentsArray`. -/
def queryArgumentsArrayList : List Query → List JsValue → List JsValue
  | [], ret => ret
  | c :: rest, ret => queryArgumentsArrayList rest (queryArgumentsArrayAux c ret)

end

/-- `Query.queryArgumentsArray()`: the recursive collector started on an
empty array. -/
def queryArgumentsArray (q : Query) : List JsValue :=
  queryArgumentsArrayAux q []

mutual

/-- Modelled from the spec's words for comparison with
`queryArgumentsArray`: the default argument values of the leaves in
left-to-right document order. -/
def leafArgValues : Query → List JsValue
  | .leaf _ _ a m => [defaultArgumentValue a m]
  | .comb _ cs _ => leafArgValuesList cs

/-- Document-order leaf argument values of a child list. -/
def leafArgValuesList : List Query → List JsValue
  | [] => []
  | c :: rest => leafArgValues c ++ leafArgValuesList rest

end

/-- The key→values accumulator of `keyValuesMap`: a JS
`Map<string, Object[]>` in insertion order. -/
abbrev KVMap := List (String × List JsValue)

/-- Append `v` to `key`'s bucket in the accumulator, creating the bucket at
the end when absent (JS `Map` insertion-order semantics). -/
def pushBucket (acc : KVMap) (key : String) (v : JsValue) : KVMap :=
  if acc.any (fun p => p.1 == key) then
    acc.map fun p => if p.1 == key then (p.1, p.2 ++ [v]) else p
  else acc ++ [(key, [v])]

/-- `ConditionBase._keyValuesMap(mapToReturn)`: return the accumulator
unchanged on a falsy field name; otherwise push
`defaultArgumentMap.get(argumentName)` (or `null` when the argument name is
falsy) onto the field name's bucket. -/
def condKeyValuesMap (fieldName argName : String) (argMap : ArgMap) (acc : KVMap) :
    KVMap :=
  if fieldName = "" then acc
  else
    let val := if argName = "" then vNull else mapGet argMap argName
    pushBucket acc fieldName val

mutual

/-- The virtual call `child.keyValuesMap(mapToReturn)` as JS dispatches it:
a combination child runs `CombinationBase.keyValuesMap`, which folds the
accumulator through its own children; a LEAF child resolves to the
zero-argument `Query.keyValuesMap()`, which IGNORES the passed accumulator
and returns `_keyValuesMap` of a fresh empty map. -/
def keyValuesMapDispatch : Query → KVMap → KVMap
  | .leaf _ f a m, _acc => condKeyValuesMap f a m []
  | .comb _ cs _, acc => combKeyValuesMapList cs acc

/-- The `forEach` fold of `CombinationBase.keyValuesMap`:
`mapToReturn = child.keyValuesMap(mapToReturn)` for each child in order. -/
def combKeyValuesMapList : List Query → KVMap → KVMap
  | [], acc => acc
  | c :: rest, acc => combKeyValuesMapList rest (keyValuesMapDispatch c acc)

end

/-- `CombinationBase.keyValuesMap(mapToReturn)` on a combination node. -/
def combKeyValuesMap (cs : List Query) (acc : KVMap) : KVMap :=
  combKeyValuesMapList cs acc

/-- A dynamically-typed argument to the `CombinationBase` constructor:
a `Query` instance, an `Array` of queries, a `Map`, or any other value. -/
inductive CtorArg where
  | q (x : Query)
  | qlist (xs : List Query)
  | amap (m : ArgMap)
  | other
  deriving DecidableEq

/-- `CombinationBase`'s constructor: `(Array, Map)` takes the array as the
children and the map as the argument map (a third argument is ignored);
otherwise, when the third argument is a `Map`, whichever of the first two
arguments are `Query` instances are pushed as children (non-queries are
silently skipped) and the third argument becomes the argument map; any
other shape throws `"Invalid arguments types for CombinationBase
constructor"`. -/
def combConstructor (arg1 arg2 : CtorArg) (arg3 : Option CtorArg) :
    Except String (List Query × ArgMap) :=
  match arg1, arg2 with
  | .qlist xs, .amap m => .ok (xs, m)
  | a1, a2 =>
    match arg3 with
    | some (.amap m) =>
      let c1 : List Query := match a1 with | .q x => [x] | _ => []
      let c2 : List Query := match a2 with | .q x => [x] | _ => []
      .ok (c1 ++ c2, m)
    | _ => .error "Invalid arguments types for CombinationBase constructor"

/-- The `QueryType` enum (src QueryType.ts). -/
inductive QueryType where
  | AND | OR | NOT
  | EQUALS | NOT_EQUALS
  | LESS_THAN | LESS_THAN_OR_EQUALS
  | MORE_THAN | MORE_THAN_OR_EQUALS
  | LIKE
  deriving DecidableEq

/-- Numeric ids assigned by the enum declaration. -/
def idOf : QueryType → Nat
  | .AND => 0
  | .OR => 1
  | .NOT => 2
  | .EQUALS => 10
  | .NOT_EQUALS => 11
  | .LESS_THAN => 20
  | .LESS_THAN_OR_EQUALS => 21
  | .MORE_THAN => 30
  | .MORE_THAN_OR_EQUALS => 31
  | .LIKE => 40

/-- Canonical (declaration) names of the enum members. -/
def nameOf : QueryType → String
  | .AND => "AND"
  | .OR => "OR"
  | .NOT => "NOT"
  | .EQUALS => "EQUALS"
  | .NOT_EQUALS => "NOT_EQUALS"
  | .LESS_THAN => "LESS_THAN"
  | .LESS_THAN_OR_EQUALS => "LESS_THAN_OR_EQUALS"
  | .MORE_THAN => "MORE_THAN"
  | .MORE_THAN_OR_EQUALS => "MORE_THAN_OR_EQUALS"
  | .LIKE => "LIKE"

/-- The enum members in declaration order (the iteration order of
`Object.keys` used to build the lookup maps). -/
def allTypes : List QueryType :=
  [.AND, .OR, .NOT, .EQUALS, .NOT_EQUALS, .LESS_THAN, .LESS_THAN_OR_EQUALS,
   .MORE_THAN, .MORE_THAN_OR_EQUALS, .LIKE]

/-- `QueryTypeHelper.fromID`: the (lazily built) id→type map's content is
exactly the graph of `idOf` over the members. -/
def fromID (id : Nat) : Option QueryType :=
  allTypes.find? fun t => idOf t == id

/-- `QueryTypeHelper.fromName`: upper-case the query and look it up among
the canonical (already upper-case) names. -/
def fromName (name : String) : Option QueryType :=
  allTypes.find? fun t => nameOf t == jsToUpper name

/-- A dynamic value handed to `QueryTypeHelper.fromTypeObject`: `null`, a
number, or any other value (via its `toString`). -/
inductive DynValue where
  | dnull
  | dnum (n : Nat)
  | dstr (s : String)
  deriving DecidableEq

/-- The `toString()` of a non-null dynamic value. -/
def dynToString : DynValue → String
  | .dnull => "null"
  | .dnum n => toString n
  | .dstr s => s

/-- `QueryTypeHelper.fromTypeObject`: `null` in, `null` out; a number goes
through `fromID`, anything else through `fromName` of its string form; an
unmatched non-null value throws `Invalid QueryType for: <value>`. -/
def fromTypeObject : DynValue → Except String (Option QueryType)
  | .dnull => .ok none
  | .dnum n =>
    match fromID n with
    | some t => .ok (some t)
    | none => .error ("Invalid QueryType for: " ++ dynToString (.dnum n))
  | .dstr s =>
    match fromName s with
    | some t => .ok (some t)
    | none => .error ("Invalid QueryType for: " ++ dynToString (.dstr s))

theorem combTestLoop_spec (t : JsValue) (am : ArgMap) :
    ∀ (cs : List Query) (r : Bool),
      combTestLoop cs t am r
        = ((cs.all fun c => testWithArgMap c t am) && (r || !cs.isEmpty))
  | [], r => by simp [combTestLoop]
  | c :: rest, r => by
    rw [combTestLoop]
    by_cases h : testWithArgMap c t am = true
    · rw [if_pos h, combTestLoop_spec t am rest true]
      simp [h]
    · rw [if_neg h]
      simp [Bool.and_assoc, h]

/-- C1: on a combination (AND-base) node, `testWithArgMap` maintains a
`result` flag that starts `false`, is set by every matching child, and is
returned after the loop, while the first failing child returns `false`
immediately — so the call returns `true` exactly when the node has at least
one child and every child matches, and a combinator with zero children
returns `false` for every candidate and argument map. -/
theorem combination_testWithArgMap_iff (tag : Nat) (cs : List Query) (m : ArgMap)
    (t : JsValue) (am : ArgMap) :
    testWithArgMap (.comb tag cs m) t am = true
      ↔ cs ≠ [] ∧ ∀ c ∈ cs, testWithArgMap c t am = true := by
  rw [testWithArgMap, combTestLoop_spec]
  simp [List.isEmpty_iff, and_comm]

/-- C2: for every node (leaf condition or combination) and candidate,
`test` coincides with `testWithArgMap` applied to the argument map the node
stored at construction. -/
theorem test_eq_testWithArgMap_default (q : Query) (t : JsValue) :
    test q t = testWithArgMap q t (storedArgMap q) := by
  cases q <;> rfl

/-- C10: `fromTypeObject(null)` returns `null` without raising: the strict
`InvalidQueryType` failure applies only to non-null unmatched values. -/
theorem fromTypeObject_null_ok :
    fromTypeObject .dnull = .ok none := rfl

mutual

/-- C3: `replaceQuery(original, replacement)` is extensionally the
function that replaces EVERY identity-equal occurrence of `original`
anywhere in the tree with `replacement` (identity modelled by equality of
tagged trees): the root case returns `replacement` directly, matching
children of a combinator are spliced in place, and all other children are
handled by recursive delegation. -/
theorem replaceQuery_eq_replaceAll :
    ∀ (q original replacement : Query),
      replaceQuery q original replacement = replaceAllOccurrences q original replacement
  | q, o, r => by
    simp only [replaceQuery.eq_def, replaceAllOccurrences.eq_def]
    by_cases h : q = o
    · simp [h]
    · simp only [if_neg h]
      cases q with
      | leaf t f a m => rfl
      | comb t cs m =>
        exact congrArg (fun l => Query.comb t l m) (replaceQueryList_eq_replaceAll cs o r)

theorem replaceQueryList_eq_replaceAll :
    ∀ (cs : List Query) (original replacement : Query),
      replaceQueryList cs original replacement
        = replaceAllOccurrencesList cs original replacement
  | [], _, _ => rfl
  | c :: rest, o, r => by
    rw [replaceQueryList, replaceAllOccurrencesList,
      replaceQueryList_eq_replaceAll rest o r]
    by_cases h : c = o
    · simp only [if_pos h, replaceAllOccurrences.eq_def]
    · rw [if_neg h, replaceQuery_eq_replaceAll c o r]

end

/-- C5 counterexample: an existing two-step pre-split path is consumed by
`path.shift()` — after the call the caller's array is empty, not the
original `["a", "b"]`. -/
theorem fetchNestedValue_mutates_presplit_path :
    (fetchNestedValueArr (vObj [("a", vObj [("b", vNum 5)])]) ["a", "b"] (vNum (-1))).2
      ≠ ["a", "b"] := by decide

/-- C5 amended: `fetchNestedValue` takes no working copy of a pre-split
path: it consumes keys off the front of the caller's array, leaving the
array a (possibly empty, possibly proper) suffix of its original elements
in their original order; only the string-path form leaves caller data
untouched. -/
theorem fetchNestedValue_path_suffix (path : List String) :
    ∀ (obj fallback : JsValue), (fetchNestedValueArr obj path fallback).2 <:+ path := by
  induction path with
  | nil =>
    intro obj fallback
    unfold fetchNestedValueArr
    by_cases h : isNullish obj = true <;> simp [h]
  | cons key rest ih =>
    intro obj fallback
    unfold fetchNestedValueArr
    by_cases h : isNullish obj = true
    · simp [h]
    · simp only [h, Bool.false_eq_true, if_false]
      by_cases hv : isNullish (propAccess obj key) = true
      · simp [hv]
      · by_cases hr : rest.length > 0
        · simp only [hv, Bool.false_eq_true, if_false, hr, if_true]
          exact (ih (propAccess obj key) fallback).trans (List.suffix_cons key rest)
        · simp [hv, hr]

mutual

theorem queryArgumentsArrayAux_spec :
    ∀ (q : Query) (ret : List JsValue),
      queryArgumentsArrayAux q ret
        = ret ++ (leafArgValues q).filter fun v => decide (v ≠ vNull)
  | .leaf t f a m, ret => by
    simp only [queryArgumentsArrayAux, leafArgValues]
    cases h : defaultArgumentValue a m <;> simp [h]
  | .comb t cs m, ret => by
    simp only [queryArgumentsArrayAux, leafArgValues]
    exact queryArgumentsArrayList_spec cs ret

theorem queryArgumentsArrayList_spec :
    ∀ (cs : List Query) (ret : List JsValue),
      queryArgumentsArrayList cs ret
        = ret ++ (leafArgValuesList cs).filter fun v => decide (v ≠ vNull)
  | [], ret => by simp [queryArgumentsArrayList, leafArgValuesList]
  | c :: rest, ret => by
    rw [queryArgumentsArrayList, leafArgValuesList,
      queryArgumentsArrayAux_spec c ret, queryArgumentsArrayList_spec rest _]
    simp [List.filter_append]

end

/-- The three-leaf AND tree of the spec's example, with the shared map
binding `"0" ↦ 10` and `"1" ↦ "bob"` and leaving `"2"` unset (absent). -/
def exMapUnset : ArgMap := [("0", vNum 10), ("1", vStr "bob")]

/-- Three leaves on `age`, `name`, `nickname` with arguments `"0"`, `"1"`,
`"2"` under an AND combination. -/
def exTreeUnset : Query :=
  .comb 0 [.leaf 1 "age" "0" exMapUnset, .leaf 2 "name" "1" exMapUnset,
    .leaf 3 "nickname" "2" exMapUnset] exMapUnset

/-- C6 counterexample: with the third leaf's argument name absent from the
map, `Map.get` yields `undefined`, and `value !== null` lets `undefined`
through — the result is `[10, "bob", undefined]`, not `[10, "bob"]`. -/
theorem queryArgumentsArray_unset_not_skipped :
    queryArgumentsArray exTreeUnset = [vNum 10, vStr "bob", vUndef] ∧
      queryArgumentsArray exTreeUnset ≠ [vNum 10, vStr "bob"] := by
  constructor
  · rfl
  · decide

/-- C6 amended: `queryArgumentsArray()` collects the leaves' default
argument values in left-to-right document order, skipping exactly the
values strictly equal to `null`; an argument name absent from the map
contributes `undefined` (it is NOT skipped), so the spec's three-leaf
example yields `[10, "bob"]` only when the third argument is bound to a
stored `null` in the map. -/
theorem queryArgumentsArray_filtered_leaves :
    (∀ q : Query,
      queryArgumentsArray q = (leafArgValues q).filter fun v => decide (v ≠ vNull)) ∧
    queryArgumentsArray
      (.comb 0 [.leaf 1 "age" "0" [("0", vNum 10), ("1", vStr "bob"), ("2", vNull)],
        .leaf 2 "name" "1" [("0", vNum 10), ("1", vStr "bob"), ("2", vNull)],
        .leaf 3 "nickname" "2" [("0", vNum 10), ("1", vStr "bob"), ("2", vNull)]]
        [("0", vNum 10), ("1", vStr "bob"), ("2", vNull)])
      = [vNum 10, vStr "bob"] := by
  constructor
  · intro q
    rw [queryArgumentsArray, queryArgumentsArrayAux_spec]
    rfl
  · rfl

/-- C7 counterexample: a key-value-mapping candidate without the leaf's
`fieldName` yields field value `undefined`, the argument resolves to
`null`, and `undefined === null` is false — the leaf test FAILS where the
claim says it succeeds. -/
theorem leaf_test_absent_field_null_arg_fails :
    getArgumentValue [("0", vNum 10)] "0" = vNull ∧
    getFieldValue (vMap [("name", vStr "x")]) "age" = vUndef ∧
    testWithArgMap (.leaf 0 "age" "0" [("0", vNum 10)]) (vMap [("name", vStr "x")])
      [("0", vNum 10)] = false := by
  refine ⟨by decide, by decide, by decide⟩

/-- C7 amended: the default comparison returns true when both operands are
strictly `null`, and otherwise — the argument value being non-null — true
exactly when the operands are strictly equal (`undefined` equals
`undefined`, but an `undefined` field value does NOT equal a `null`
argument value, so a mapping candidate missing the fieldName fails against
a null argument). -/
theorem testValues_characterization :
    ∀ fieldValue argValue : JsValue,
      testValues fieldValue argValue = true ↔
        ((argValue = vNull ∧ fieldValue = vNull) ∨
          (argValue ≠ vNull ∧ strictEq argValue fieldValue = true)) := by
  intro f a
  cases a <;> cases f <;> simp [testValues, strictEq]

/-- C4: evaluating the combination-node `keyValuesMap` at a two-leaf AND
node with a seeded accumulator: the virtual call
`child.keyValuesMap(mapToReturn)` resolves, for leaf children, to the
zero-argument `Query.keyValuesMap()`, which ignores the passed accumulator
and restarts from a fresh map — both the seed entry and the first leaf's
`("age", [10])` entry are discarded, leaving only the last child's entry. -/
theorem combKeyValuesMap_discards_earlier_children :
    combKeyValuesMap
      [.leaf 1 "age" "0" [("0", vNum 10), ("1", vStr "bob")],
        .leaf 2 "name" "1" [("0", vNum 10), ("1", vStr "bob")]]
      [("seed", [vBool true])]
      = [("name", [vStr "bob"])] := by
  rfl

/-- C8 counterexample: the three-argument form with BOTH leading arguments
non-queries and a `Map` third argument does not throw — it succeeds with an
empty children list. -/
theorem combConstructor_nonquery_args_accepted :
    combConstructor .other .other (some (.amap [])) = .ok ([], []) := rfl

/-- C8 amended: construction succeeds exactly when the first argument is an
array and the second a map, or when the third argument is a map — in the
latter case each of the first two arguments that is a `Query` becomes a
child and any non-query is silently skipped (possibly yielding fewer than
two children); only shapes matching neither form fail with the
`InvalidArguments` error. -/
theorem combConstructor_ok_iff :
    ∀ (a1 a2 : CtorArg) (a3 : Option CtorArg),
      (∃ r, combConstructor a1 a2 a3 = .ok r) ↔
        ((∃ xs m, a1 = .qlist xs ∧ a2 = .amap m) ∨
          (∃ m, a3 = some (.amap m))) := by
  intro a1 a2 a3
  cases a3 with
  | none => cases a1 <;> cases a2 <;> simp [combConstructor]
  | some c => cases c <;> cases a1 <;> cases a2 <;> simp [combConstructor]

/-- C9: the registry's dynamic resolution dispatches numbers to the id
lookup and everything else to the (upper-casing, hence case-insensitive)
name lookup, returns the matching `QueryType` whenever the lookup finds
one (in particular on every canonical id, canonical name, and lower-cased
canonical name), and otherwise throws `Invalid QueryType for: <value>`
carrying the offending value. -/
theorem fromTypeObject_nonnull_spec :
    (∀ (n : Nat) (t : QueryType), fromID n = some t →
        fromTypeObject (.dnum n) = .ok (some t)) ∧
    (∀ n : Nat, fromID n = none →
        fromTypeObject (.dnum n)
          = .error ("Invalid QueryType for: " ++ dynToString (.dnum n))) ∧
    (∀ (s : String) (t : QueryType), fromName s = some t →
        fromTypeObject (.dstr s) = .ok (some t)) ∧
    (∀ s : String, fromName s = none →
        fromTypeObject (.dstr s)
          = .error ("Invalid QueryType for: " ++ dynToString (.dstr s))) ∧
    (∀ t : QueryType, fromID (idOf t) = some t) ∧
    (∀ t : QueryType, fromName (nameOf t) = some t) ∧
    (∀ t : QueryType, fromName (jsToLower (nameOf t)) = some t) := by
  refine ⟨?_, ?_, ?_, ?_, ?_, ?_, ?_⟩
  · intro n t h; simp [fromTypeObject, h]
  · intro n h; simp [fromTypeObject, h]
  · intro s t h; simp [fromTypeObject, h]
  · intro s h; simp [fromTypeObject, h]
  · intro t; cases t <;> rfl
  · intro t; cases t <;> decide
  · intro t; cases t <;> decide

/-- Witness for C9 at concrete inputs: a matched id, an unmatched id, a
lower-case name, and an unmatched name. -/
theorem fromTypeObject_nonnull_spec_witness :
    fromTypeObject (.dnum 40) = .ok (some .LIKE) ∧
    fromTypeObject (.dnum 3)
      = .error ("Invalid QueryType for: " ++ dynToString (.dnum 3)) ∧
    fromTypeObject (.dstr "or") = .ok (some .OR) ∧
    fromTypeObject (.dstr "XYZ")
      = .error ("Invalid QueryType for: " ++ dynToString (.dstr "XYZ")) :=
  ⟨fromTypeObject_nonnull_spec.1 40 .LIKE (by decide),
    fromTypeObject_nonnull_spec.2.1 3 (by decide),
    fromTypeObject_nonnull_spec.2.2.1 "or" .OR (by decide),
    fromTypeObject_nonnull_spec.2.2.2.1 "XYZ" (by decide)⟩

end JsQuery
